import Mathlib

/-!
# NLopt adapter of libnest2d (`nlopt_boilerplate.hpp`)

A shallow embedding of `method2nloptAlg`, of the four marshalling functors
(`BoundsFunc`, `InitValFunc`, `ResultCopyFunc`, `FunvalCopyFunc`), of the raw
objective shim `optfunc` and of `NloptOptimizer::optimize`, together with the
properties of the adapter that are proved about them.

Conventions of the embedding.

* `double` is a type parameter `Dbl` with a zero (the value `std::vector::resize`
  pads with).  Only copies and conversions of doubles occur in the adapter.
* A template argument `T` of the pack `Args...` is a `SlotType`: its carrier
  together with the two conversions the adapter applies to it (`T → double`,
  `double → T`) and its value-initialised element `T()`.
* A `std::vector<double>` is a `List Dbl`; an index outside the size is reported
  as `Err.out_of_range`.
* An `nlopt::opt` object is the list of the calls it has received since it was
  constructed; the solver itself is a parameter (`nlopt.Backend`).
* A `throw` is `Except.error`.
-/

namespace libnest2d.opt

/-! ## Declarations taken from `optimizer.hpp` and `nlopt.hpp` -/

/-- Modelled from the spec: the enumeration `Method` of `optimizer.hpp` (abstract
method tags "simplex, subplex, genetic, …").  The three enumerators named in
`nlopt_boilerplate.hpp` are constructors; `other` stands for every further
value of the enumeration. -/
inductive Method where
  | L_SIMPLEX
  | L_SUBPLEX
  | G_GENETIC
  | other (tag : Nat)
  deriving DecidableEq

/-- Modelled from the spec: the stop limit type of `optimizer.hpp`
("limit type: absolute | relative"). -/
inductive StopLimitType where
  | ABSOLUTE
  | RELATIVE
  deriving DecidableEq

/-- Modelled from the spec: the optimization direction of `optimizer.hpp`
("minimize | maximize"). -/
inductive OptDir where
  | MIN
  | MAX
  deriving DecidableEq

/-- Modelled from the spec: the stopping criteria of `optimizer.hpp`
("limit type, limit value, max iterations (0 = unbounded)"). -/
structure StopCriteria (Dbl : Type) where
  type : StopLimitType
  stoplimit : Dbl
  max_iterations : Nat

/-- Modelled from the spec: the class `Bound<T>` of `optimizer.hpp`
("a per-parameter minimum, maximum pair"). -/
structure Bound (T : Type) where
  min_ : T
  max_ : T

/-- Accessor `Bound<T>::min()`. -/
def Bound.min {T : Type} (b : Bound T) : T := b.min_

/-- Accessor `Bound<T>::max()`. -/
def Bound.max {T : Type} (b : Bound T) : T := b.max_

/-- Algorithm identifiers of the backend (`nlopt::algorithm`).  The five
enumerators named in `nlopt_boilerplate.hpp` are constructors; `other` stands
for every further enumerator of the backend. -/
inductive nlopt.algorithm where
  | LN_NELDERMEAD
  | LN_SBPLX
  | GN_ESCH
  | GN_MLSL
  | GN_MLSL_LDS
  | other (id : Nat)
  deriving DecidableEq

/-- Abnormal terminations of the embedded code. -/
inductive Err where
  /-- The statement `throw(m)` of `method2nloptAlg`. -/
  | thrown (m : Method)
  /-- A `std::vector` element access outside the size of the vector. -/
  | out_of_range
  /-- A call on an `nlopt::opt` object that was never given an algorithm. -/
  | uninitialized
  deriving DecidableEq

/-! ## Typed parameter sequences and the marshalling loop -/

/-- One template argument `T` of the pack `Args...`: "all the optimized types
have to be convertible to double". -/
structure SlotType (Dbl : Type) where
  /-- The values of the type. -/
  T : Type
  /-- The conversion applied by `vec[N] = value`. -/
  toDouble : T → Dbl
  /-- The conversion applied by `value = vec[N]`. -/
  ofDouble : Dbl → T
  /-- The value-initialised element `T()`. -/
  dflt : T

/-- A heterogeneous sequence with one item of type `F s` per slot `s`. -/
def HList {Dbl : Type} (F : SlotType Dbl → Type) : List (SlotType Dbl) → Type
  | [] => Unit
  | s :: ss => F s × HList F ss

/-- The type `std::tuple<Args...>`. -/
abbrev Tuple {Dbl : Type} (ss : List (SlotType Dbl)) : Type := HList (fun s => s.T) ss

/-- The type of the pack `Bound<Args>... args`. -/
abbrev Bounds {Dbl : Type} (ss : List (SlotType Dbl)) : Type := HList (fun s => Bound s.T) ss

/-- The value-initialised tuple `std::tuple<Args...>()`. -/
def Tuple.dflt {Dbl : Type} : (ss : List (SlotType Dbl)) → Tuple ss
  | [] => ()
  | s :: ss => (s.dflt, Tuple.dflt ss)

/-- The type of a callable taking `Args...` positionally and returning `R`. -/
def Fn {Dbl : Type} : List (SlotType Dbl) → Type → Type
  | [], R => R
  | s :: ss, R => s.T → Fn ss R

/-- The action of a marshalling functor: `operator()(int N, T& item)` on a functor
whose captured state has type `σ`.  The item is passed by reference, so the
action returns the item and the state it leaves. -/
abbrev Action {Dbl : Type} (F : SlotType Dbl → Type) (σ : Type) : Type 1 :=
  (N : Nat) → (s : SlotType Dbl) → F s → σ → Except Err (F s × σ)

/-- Modelled from the spec: the positional marshalling loop of `metaloop.hpp`,
started at index `i`: "invokes the action exactly once for each index 0..N-1,
in ascending index order, with no side effects beyond what the action
performs". -/
def metaloop.applyFrom {Dbl : Type} {F : SlotType Dbl → Type} {σ : Type} (fn : Action F σ) :
    (i : Nat) → (ss : List (SlotType Dbl)) → HList F ss → σ → Except Err (HList F ss × σ)
  | _, [], _, st => .ok ((), st)
  | i, s :: ss, (x, xs), st =>
    match fn i s x st with
    | .error e => .error e
    | .ok (x1, st1) =>
      match metaloop.applyFrom fn (i + 1) ss xs st1 with
      | .error e => .error e
      | .ok (xs1, st2) => .ok ((x1, xs1), st2)

/-- Modelled from the spec: `metaloop::apply(fn, items...)` of `metaloop.hpp`, the
positional marshalling loop over all the slots, from index 0. -/
def metaloop.apply {Dbl : Type} {F : SlotType Dbl → Type} {σ : Type} (fn : Action F σ)
    (ss : List (SlotType Dbl)) (items : HList F ss) (st : σ) : Except Err (HList F ss × σ) :=
  metaloop.applyFrom fn 0 ss items st

/-- Modelled from the spec: `metaloop::callFunWithTuple(fn, tup, index_sequence)` of
`metaloop.hpp`, which "invokes the user function with that sequence expanded
positionally". -/
def metaloop.callFunWithTuple {Dbl : Type} {R : Type} :
    (ss : List (SlotType Dbl)) → Fn ss R → Tuple ss → R
  | [], fn, _ => fn
  | _ :: ss, fn, (x, xs) => metaloop.callFunWithTuple ss (fn x) xs

/-! ## Vectors of doubles -/

/-- The call `v.resize(n)`: the first `n` elements are kept and the vector is padded
with zeros up to size `n`. -/
def vec_resize {Dbl : Type} [Zero Dbl] (v : List Dbl) (n : Nat) : List Dbl :=
  v.take n ++ List.replicate (n - v.length) 0

/-- The assignment `v[i] = x`. -/
def vec_write {Dbl : Type} (v : List Dbl) (i : Nat) (x : Dbl) : Except Err (List Dbl) :=
  if i < v.length then .ok (v.set i x) else .error .out_of_range

/-- The element read `v[i]`. -/
def vec_read {Dbl : Type} (v : List Dbl) (i : Nat) : Except Err Dbl :=
  match v[i]? with
  | some x => .ok x
  | none => .error .out_of_range

/-! ## The backend -/

/-- The raw callback type of the backend (`nlopt::vfunc` with its data pointer
bound): from the parameter array and the gradient array to the value, with the
gradient array as the callback leaves it. -/
abbrev nlopt.vfunc (Dbl : Type) : Type := List Dbl → List Dbl → Except Err (Dbl × List Dbl)

/-- The calls that the adapter issues on an `nlopt::opt` object. -/
inductive nlopt.Call (Dbl : Type) where
  /-- The constructor `nlopt::opt(a, n)`. -/
  | construct (a : nlopt.algorithm) (n : Nat)
  | set_lower_bounds (lb : List Dbl)
  | set_upper_bounds (ub : List Dbl)
  /-- The call `set_local_optimizer(lo)`; `lo` is the argument object, given by the
  calls it has received. -/
  | set_local_optimizer (lo : List (nlopt.Call Dbl))
  | set_ftol_abs (tol : Dbl)
  | set_ftol_rel (tol : Dbl)
  | set_maxeval (maxeval : Nat)
  | set_min_objective (f : nlopt.vfunc Dbl)
  | set_max_objective (f : nlopt.vfunc Dbl)
  /-- The solve step `optimize(x, opt_f)`, with the array it is given. -/
  | optimize (x : List Dbl)

/-- An `nlopt::opt` object: the calls it has received, oldest first.  The
default-constructed object `nlopt::opt()` has received none. -/
abbrev nlopt.opt (Dbl : Type) : Type := List (nlopt.Call Dbl)

/-- The object built by `nlopt::opt(a, n)`. -/
def nlopt.opt.mk {Dbl : Type} (a : nlopt.algorithm) (n : Nat) : nlopt.opt Dbl :=
  [.construct a n]

/-- The call `o.get_algorithm()`. -/
def nlopt.opt.get_algorithm {Dbl : Type} : nlopt.opt Dbl → Except Err nlopt.algorithm
  | .construct a _ :: _ => .ok a
  | _ => .error .uninitialized

/-- A member call `o.c(...)` on the object `o`: the object records the call. -/
def nlopt.opt.call {Dbl : Type} (o : nlopt.opt Dbl) (c : nlopt.Call Dbl) : nlopt.opt Dbl :=
  o ++ [c]

/-- What one solve step reports: the array as it leaves it, the achieved score
and the status code. -/
structure nlopt.Outcome (Dbl : Type) where
  x : List Dbl
  opt_f : Dbl
  result : Int

/-- The solver behind `nlopt::opt::optimize`, a black box of the adapter: from the
configuration of the object (the calls it has received) and the working array
to what the solve step reports.  The solve step writes into the storage of the
array it is given, so it leaves its size unchanged. -/
structure nlopt.Backend (Dbl : Type) where
  solve : nlopt.opt Dbl → List Dbl → nlopt.Outcome Dbl
  size_x : ∀ (o : nlopt.opt Dbl) (x : List Dbl), (solve o x).x.length = x.length

/-! ## The adapter (`nlopt_boilerplate.hpp`) -/

/-- The function `method2nloptAlg` (lines 12-20). -/
def method2nloptAlg (m : Method) : Except Err nlopt.algorithm :=
  match m with
  | .L_SIMPLEX => .ok .LN_NELDERMEAD
  | .L_SUBPLEX => .ok .LN_SBPLX
  | .G_GENETIC => .ok .GN_ESCH
  | _ => .error (.thrown m)

/-- The data members of `NloptOptimizer`, with `stopcr_` and `dir_` of its base
class `Optimizer`. -/
structure NloptOptimizer (Dbl : Type) where
  opt_ : nlopt.opt Dbl
  lower_bounds_ : List Dbl
  upper_bounds_ : List Dbl
  initvals_ : List Dbl
  alg_ : nlopt.algorithm
  localmethod_ : Method
  stopcr_ : StopCriteria Dbl
  dir_ : OptDir

/-- The public constructor `NloptOptimizer(alg, stopcr)` (lines 166-168).  The
direction is a member of the base class, which sets it; it is a parameter
here. -/
def NloptOptimizer.new {Dbl : Type} (alg : nlopt.algorithm) (stopcr : StopCriteria Dbl)
    (dir : OptDir) : NloptOptimizer Dbl :=
  { opt_ := [], lower_bounds_ := [], upper_bounds_ := [], initvals_ := [],
    alg_ := alg, localmethod_ := .L_SIMPLEX, stopcr_ := stopcr, dir_ := dir }

/-- Modelled from the spec: the class `Result<Args...>` of `optimizer.hpp`
("resultcode (solver status), score (achieved objective value), optimum"). -/
structure Result {Dbl : Type} (ss : List (SlotType Dbl)) where
  resultcode : Int
  score : Dbl
  optimum : Tuple ss

/-- The functor `BoundsFunc` (lines 44-53). -/
def BoundsFunc {Dbl : Type} : Action (fun (s : SlotType Dbl) => Bound s.T) (NloptOptimizer Dbl) :=
  fun N s bounds self =>
    match vec_write self.lower_bounds_ N (s.toDouble bounds.min) with
    | .error e => .error e
    | .ok lb =>
      match vec_write self.upper_bounds_ N (s.toDouble bounds.max) with
      | .error e => .error e
      | .ok ub => .ok (bounds, { self with lower_bounds_ := lb, upper_bounds_ := ub })

/-- The functor `InitValFunc` (lines 55-63). -/
def InitValFunc {Dbl : Type} : Action (fun (s : SlotType Dbl) => s.T) (NloptOptimizer Dbl) :=
  fun N s initval self =>
    match vec_write self.initvals_ N (s.toDouble initval) with
    | .error e => .error e
    | .ok iv => .ok (initval, { self with initvals_ := iv })

/-- The functor `ResultCopyFunc` (lines 65-73). -/
def ResultCopyFunc {Dbl : Type} : Action (fun (s : SlotType Dbl) => s.T) (NloptOptimizer Dbl) :=
  fun N s _ self =>
    match vec_read self.initvals_ N with
    | .error e => .error e
    | .ok d => .ok (s.ofDouble d, self)

/-- The functor `FunvalCopyFunc` (lines 75-84); its state is the array `params`. -/
def FunvalCopyFunc {Dbl : Type} : Action (fun (s : SlotType Dbl) => s.T) (List Dbl) :=
  fun N s _ params =>
    match vec_read params N with
    | .error e => .error e
    | .ok d => .ok (s.ofDouble d, params)

/-- The raw objective shim `optfunc<Fn, Args...>` (lines 88-103).  `data` is the
objective that the pointer `data` refers to, `R` the type it returns; the
result is the returned double together with `grad` as the shim leaves it. -/
def optfunc {Dbl : Type} (ss : List (SlotType Dbl)) (R : SlotType Dbl)
    (params : List Dbl) (grad : List Dbl) (data : Fn ss R.T) : Except Err (Dbl × List Dbl) :=
  let fnptr := data
  let funval := Tuple.dflt ss
  match metaloop.apply FunvalCopyFunc ss funval params with
  | .error e => .error e
  | .ok (funval, _) =>
    let ret := metaloop.callFunWithTuple ss fnptr funval
    .ok (R.toDouble ret, grad)

/-- What a call of `optimize` leaves: the returned `Result` or the exception that
ends the call, the adapter (whose `opt_` records the calls made on the primary
solver), and the function-scope object `localopt`.  An exception does not undo
the calls made before it. -/
structure Run {Dbl : Type} (ss : List (SlotType Dbl)) where
  result : Except Err (Result ss)
  self : NloptOptimizer Dbl
  localopt : nlopt.opt Dbl

/-- The member function `NloptOptimizer::optimize<Func, Args...>` (lines 105-163),
run against the solver `B`. -/
def NloptOptimizer.optimize {Dbl : Type} [Zero Dbl] (B : nlopt.Backend Dbl)
    (self : NloptOptimizer Dbl) (ss : List (SlotType Dbl)) (R : SlotType Dbl)
    (func : Fn ss R.T) (initvals : Tuple ss) (args : Bounds ss) : Run ss :=
  let self := { self with lower_bounds_ := vec_resize self.lower_bounds_ ss.length }
  let self := { self with upper_bounds_ := vec_resize self.upper_bounds_ ss.length }
  let self := { self with initvals_ := vec_resize self.initvals_ ss.length }
  let self := { self with opt_ := nlopt.opt.mk self.alg_ ss.length }
  match metaloop.apply BoundsFunc ss args self with
  | .error e => { result := .error e, self := self, localopt := [] }
  | .ok (_, self) =>
  let self := { self with opt_ := nlopt.opt.call self.opt_ (.set_lower_bounds self.lower_bounds_) }
  let self := { self with opt_ := nlopt.opt.call self.opt_ (.set_upper_bounds self.upper_bounds_) }
  let localopt : nlopt.opt Dbl := []
  match nlopt.opt.get_algorithm self.opt_ with
  | .error e => { result := .error e, self := self, localopt := localopt }
  | .ok a =>
  let switched : Except Err (NloptOptimizer Dbl × nlopt.opt Dbl) :=
    match a with
    | .GN_MLSL | .GN_MLSL_LDS =>
      match method2nloptAlg self.localmethod_ with
      | .error e => .error e
      | .ok la =>
        let localopt : nlopt.opt Dbl := nlopt.opt.mk la ss.length
        let localopt := nlopt.opt.call localopt (.set_lower_bounds self.lower_bounds_)
        let localopt := nlopt.opt.call localopt (.set_upper_bounds self.upper_bounds_)
        .ok ({ self with opt_ := nlopt.opt.call self.opt_ (.set_local_optimizer localopt) },
             localopt)
    | _ => .ok (self, localopt)
  match switched with
  | .error e => { result := .error e, self := self, localopt := localopt }
  | .ok (self, localopt) =>
  let self :=
    match self.stopcr_.type with
    | .ABSOLUTE =>
      { self with opt_ := nlopt.opt.call self.opt_ (.set_ftol_abs self.stopcr_.stoplimit) }
    | .RELATIVE =>
      { self with opt_ := nlopt.opt.call self.opt_ (.set_ftol_rel self.stopcr_.stoplimit) }
  let self :=
    if self.stopcr_.max_iterations > 0 then
      { self with opt_ := nlopt.opt.call self.opt_ (.set_maxeval self.stopcr_.max_iterations) }
    else self
  match metaloop.apply InitValFunc ss initvals self with
  | .error e => { result := .error e, self := self, localopt := localopt }
  | .ok (_, self) =>
  let self :=
    match self.dir_ with
    | .MIN =>
      { self with
        opt_ := nlopt.opt.call self.opt_ (.set_min_objective (fun p g => optfunc ss R p g func)) }
    | .MAX =>
      { self with
        opt_ := nlopt.opt.call self.opt_ (.set_max_objective (fun p g => optfunc ss R p g func)) }
  let result : Result ss := { resultcode := 0, score := 0, optimum := Tuple.dflt ss }
  let out := B.solve self.opt_ self.initvals_
  let self :=
    { self with opt_ := nlopt.opt.call self.opt_ (.optimize self.initvals_), initvals_ := out.x }
  let result := { result with score := out.opt_f }
  let rescode := out.result
  let result := { result with resultcode := rescode }
  match metaloop.apply ResultCopyFunc ss result.optimum self with
  | .error e => { result := .error e, self := self, localopt := localopt }
  | .ok (optimum, self) =>
  let result := { result with optimum := optimum }
  { result := .ok result, self := self, localopt := localopt }

/-! ## The flat arrays and the configuration sequence as the specification describes them -/

/-- The flat array that is index-aligned with a typed sequence: element `i` is
`g` of item `i`. -/
def Spec.flatten {Dbl : Type} {F : SlotType Dbl → Type} (g : (s : SlotType Dbl) → F s → Dbl) :
    (ss : List (SlotType Dbl)) → HList F ss → List Dbl
  | [], _ => []
  | s :: ss, (x, xs) => g s x :: Spec.flatten g ss xs

/-- Item `i` of a typed sequence, with its slot type. -/
def HList.nth {Dbl : Type} {F : SlotType Dbl → Type} :
    (ss : List (SlotType Dbl)) → HList F ss → Nat → Option ((s : SlotType Dbl) × F s)
  | [], _, _ => none
  | s :: _, (x, _), 0 => some ⟨s, x⟩
  | _ :: ss, (_, xs), i + 1 => HList.nth ss xs i

/-- The lower-bound array the specification asks for: `bound_i.min()` as a double,
at index `i`. -/
def Spec.lower {Dbl : Type} (ss : List (SlotType Dbl)) (args : Bounds ss) : List Dbl :=
  Spec.flatten (fun s (b : Bound s.T) => s.toDouble b.min) ss args

/-- The upper-bound array the specification asks for: `bound_i.max()` as a double,
at index `i`. -/
def Spec.upper {Dbl : Type} (ss : List (SlotType Dbl)) (args : Bounds ss) : List Dbl :=
  Spec.flatten (fun s (b : Bound s.T) => s.toDouble b.max) ss args

/-- The seeded working array the specification asks for: initial value `i` as a
double, at index `i`. -/
def Spec.seed {Dbl : Type} (ss : List (SlotType Dbl)) (initvals : Tuple ss) : List Dbl :=
  Spec.flatten (fun s (v : s.T) => s.toDouble v) ss initvals

/-- The typed sequence decoded from a flat array: slot `i` is element `i` converted
to the type of slot `i`.  There is none when the array has fewer elements than
there are slots. -/
def Spec.decode {Dbl : Type} : (ss : List (SlotType Dbl)) → List Dbl → Option (Tuple ss)
  | [], _ => some ()
  | _ :: _, [] => none
  | s :: ss, d :: ds =>
    match Spec.decode ss ds with
    | some t => some (s.ofDouble d, t)
    | none => none

/-- The positional call `f(p[0], ..., p[N-1])`, element `i` converted to the type of
slot `i`.  There is none when the array has fewer than `N` elements. -/
def Spec.callPositional {Dbl : Type} {R : Type} :
    (ss : List (SlotType Dbl)) → Fn ss R → List Dbl → Option R
  | [], f, _ => some f
  | _ :: _, _, [] => none
  | s :: ss, f, d :: ds => Spec.callPositional ss (f (s.ofDouble d)) ds

/-- The array `l` with the window that starts at index `i` overwritten by `vals`. -/
def splice {Dbl : Type} (l : List Dbl) (i : Nat) (vals : List Dbl) : List Dbl :=
  l.take i ++ vals ++ l.drop (i + vals.length)

/-- The decoded sequence, with value-initialised slots where the array is too
short. -/
def Spec.decodeD {Dbl : Type} (ss : List (SlotType Dbl)) (x : List Dbl) : Tuple ss :=
  (Spec.decode ss x).getD (Tuple.dflt ss)

/-- The class of algorithms "requiring nested local refinement", as the code tests
it: `GN_MLSL` and `GN_MLSL_LDS`. -/
def Spec.needsLocal : nlopt.algorithm → Bool
  | .GN_MLSL => true
  | .GN_MLSL_LDS => true
  | _ => false

/-- Steps 2 and 3: a solver for algorithm `a` and dimension `N`, given the bounds. -/
def Spec.bounded {Dbl : Type} (a : nlopt.algorithm) (ss : List (SlotType Dbl))
    (args : Bounds ss) : nlopt.opt Dbl :=
  [.construct a ss.length, .set_lower_bounds (Spec.lower ss args),
    .set_upper_bounds (Spec.upper ss args)]

/-- Step 5: the calls that translate the stopping criteria. -/
def Spec.stopCalls {Dbl : Type} (c : StopCriteria Dbl) : List (nlopt.Call Dbl) :=
  (match c.type with
    | .ABSOLUTE => [nlopt.Call.set_ftol_abs c.stoplimit]
    | .RELATIVE => [nlopt.Call.set_ftol_rel c.stoplimit]) ++
  (if 0 < c.max_iterations then [nlopt.Call.set_maxeval c.max_iterations] else [])

/-- Step 7: the registration call for direction `dir`. -/
def Spec.objectiveCall {Dbl : Type} (dir : OptDir) (f : nlopt.vfunc Dbl) : nlopt.Call Dbl :=
  match dir with
  | .MIN => .set_min_objective f
  | .MAX => .set_max_objective f

/-- The raw objective shim bound to the objective `func`. -/
def Spec.shim {Dbl : Type} (ss : List (SlotType Dbl)) (R : SlotType Dbl) (func : Fn ss R.T) :
    nlopt.vfunc Dbl :=
  fun p g => optfunc ss R p g func

/-- Steps 2 to 7: the calls on the primary solver before the solve step; `lo` is the
attached local optimizer, if there is one. -/
def Spec.config {Dbl : Type} (self : NloptOptimizer Dbl) (ss : List (SlotType Dbl))
    (R : SlotType Dbl) (func : Fn ss R.T) (args : Bounds ss) (lo : Option (nlopt.opt Dbl)) :
    nlopt.opt Dbl :=
  Spec.bounded self.alg_ ss args ++
  (match lo with
    | some l => [nlopt.Call.set_local_optimizer l]
    | none => []) ++
  Spec.stopCalls self.stopcr_ ++
  [Spec.objectiveCall self.dir_ (Spec.shim ss R func)]

/-- Steps 1 to 10 of a call that reaches the solve step. -/
def Spec.completed {Dbl : Type} (B : nlopt.Backend Dbl) (self : NloptOptimizer Dbl)
    (ss : List (SlotType Dbl)) (R : SlotType Dbl) (func : Fn ss R.T) (initvals : Tuple ss)
    (args : Bounds ss) (lo : Option (nlopt.opt Dbl)) : Run ss :=
  let cfg := Spec.config self ss R func args lo
  let out := B.solve cfg (Spec.seed ss initvals)
  { result := .ok { resultcode := out.result, score := out.opt_f,
                    optimum := Spec.decodeD ss out.x },
    self := { self with
      opt_ := cfg ++ [.optimize (Spec.seed ss initvals)],
      lower_bounds_ := Spec.lower ss args,
      upper_bounds_ := Spec.upper ss args,
      initvals_ := out.x },
    localopt := lo.getD [] }

/-- A call that ends with the exception `e` of `method2nloptAlg`, after steps 1
to 3. -/
def Spec.aborted {Dbl : Type} [Zero Dbl] (self : NloptOptimizer Dbl)
    (ss : List (SlotType Dbl)) (args : Bounds ss) (e : Err) : Run ss :=
  { result := .error e,
    self := { self with
      opt_ := Spec.bounded self.alg_ ss args,
      lower_bounds_ := Spec.lower ss args,
      upper_bounds_ := Spec.upper ss args,
      initvals_ := vec_resize self.initvals_ ss.length },
    localopt := [] }

/-- The whole of `optimize`, by cases on the algorithm and the local method. -/
def Spec.optimize {Dbl : Type} [Zero Dbl] (B : nlopt.Backend Dbl) (self : NloptOptimizer Dbl)
    (ss : List (SlotType Dbl)) (R : SlotType Dbl) (func : Fn ss R.T) (initvals : Tuple ss)
    (args : Bounds ss) : Run ss :=
  if Spec.needsLocal self.alg_ then
    match method2nloptAlg self.localmethod_ with
    | .error e => Spec.aborted self ss args e
    | .ok la => Spec.completed B self ss R func initvals args
        (some (Spec.bounded la ss args))
  else Spec.completed B self ss R func initvals args none

/-! ## Observers of the calls recorded on a solver -/

/-- The arrays given to `set_lower_bounds`, in call order. -/
def nlopt.opt.lowerArgs {Dbl : Type} (o : nlopt.opt Dbl) : List (List Dbl) :=
  o.filterMap fun c => match c with
    | .set_lower_bounds lb => some lb
    | _ => none

/-- The arrays given to `set_upper_bounds`, in call order. -/
def nlopt.opt.upperArgs {Dbl : Type} (o : nlopt.opt Dbl) : List (List Dbl) :=
  o.filterMap fun c => match c with
    | .set_upper_bounds ub => some ub
    | _ => none

/-- The arrays given to the solve step, in call order. -/
def nlopt.opt.solveArgs {Dbl : Type} (o : nlopt.opt Dbl) : List (List Dbl) :=
  o.filterMap fun c => match c with
    | .optimize x => some x
    | _ => none

/-- The solvers attached by `set_local_optimizer`, in call order. -/
def nlopt.opt.localArgs {Dbl : Type} (o : nlopt.opt Dbl) : List (nlopt.opt Dbl) :=
  o.filterMap fun c => match c with
    | .set_local_optimizer lo => some lo
    | _ => none

/-- The tolerances given to `set_ftol_abs`, in call order. -/
def nlopt.opt.ftolAbsArgs {Dbl : Type} (o : nlopt.opt Dbl) : List Dbl :=
  o.filterMap fun c => match c with
    | .set_ftol_abs t => some t
    | _ => none

/-- The tolerances given to `set_ftol_rel`, in call order. -/
def nlopt.opt.ftolRelArgs {Dbl : Type} (o : nlopt.opt Dbl) : List Dbl :=
  o.filterMap fun c => match c with
    | .set_ftol_rel t => some t
    | _ => none

/-- The evaluation caps given to `set_maxeval`, in call order. -/
def nlopt.opt.maxevalArgs {Dbl : Type} (o : nlopt.opt Dbl) : List Nat :=
  o.filterMap fun c => match c with
    | .set_maxeval n => some n
    | _ => none

/-- The callbacks given to `set_min_objective`, in call order. -/
def nlopt.opt.minObjectiveArgs {Dbl : Type} (o : nlopt.opt Dbl) : List (nlopt.vfunc Dbl) :=
  o.filterMap fun c => match c with
    | .set_min_objective f => some f
    | _ => none

/-- The callbacks given to `set_max_objective`, in call order. -/
def nlopt.opt.maxObjectiveArgs {Dbl : Type} (o : nlopt.opt Dbl) : List (nlopt.vfunc Dbl) :=
  o.filterMap fun c => match c with
    | .set_max_objective f => some f
    | _ => none

/-! ## Supported tags, aborted calls and round trips -/

/-- The method tags with a backend mapping: `L_SIMPLEX`, `L_SUBPLEX`, `G_GENETIC`. -/
def Spec.supported : Method → Bool
  | .L_SIMPLEX => true
  | .L_SUBPLEX => true
  | .G_GENETIC => true
  | _ => false

/-- The adapter states in which `optimize` is ended by the exception of
`method2nloptAlg`: the algorithm needs a local optimizer and the local method
has no backend mapping.  The public constructor builds no such state. -/
def Spec.aborts {Dbl : Type} (self : NloptOptimizer Dbl) : Bool :=
  Spec.needsLocal self.alg_ && !Spec.supported self.localmethod_

/-- The attached local optimizer of a call that is not aborted, if the algorithm
needs one. -/
def Spec.localFor {Dbl : Type} (self : NloptOptimizer Dbl) (ss : List (SlotType Dbl))
    (args : Bounds ss) : Option (nlopt.opt Dbl) :=
  if Spec.needsLocal self.alg_ then
    match method2nloptAlg self.localmethod_ with
    | .ok la => some (Spec.bounded la ss args)
    | .error _ => none
  else none

/-- The sequence whose slot `i` is item `i` converted to double and back. -/
def Spec.roundTrip {Dbl : Type} : (ss : List (SlotType Dbl)) → Tuple ss → Tuple ss
  | [], _ => ()
  | s :: ss, (v, vs) => (s.ofDouble (s.toDouble v), Spec.roundTrip ss vs)

/-! ## Concrete slot types, solvers and adapters -/

/-- The slot type `double`; a double is read as the rational number it denotes. -/
abbrev Ex.double : SlotType ℚ := { T := ℚ, toDouble := id, ofDouble := id, dflt := 0 }

/-- The number of low bits that a natural number below `2 ^ (53 + fuel)` loses when
it is brought to the 53 bits of the significand of a double. -/
def Ex.droppedBits (n : Nat) : Nat → Nat
  | 0 => 0
  | fuel + 1 => if n < 2 ^ 53 then 0 else Ex.droppedBits (n / 2) fuel + 1

/-- The conversion `long long → double` (round to nearest, ties to even): the
integer value of the double nearest to `x`, for `x` in the range of
`long long`. -/
def Ex.roundToDouble (x : Int) : Int :=
  let n := x.natAbs
  let e := Ex.droppedBits n 11
  let q := n / 2 ^ e
  let r := n % 2 ^ e
  let half := 2 ^ e / 2
  let q1 := if half < r ∨ (0 < e ∧ r = half ∧ q % 2 = 1) then q + 1 else q
  x.sign * (q1 * 2 ^ e : Nat)

/-- The slot type `long long`: to double by rounding, from double by truncation
toward zero. -/
abbrev Ex.int64 : SlotType ℚ :=
  { T := Int, toDouble := fun x => (Ex.roundToDouble x : Int),
    ofDouble := fun d => Int.tdiv d.num d.den, dflt := 0 }

/-- A solver that moves every element of the working array by `shift` and reports
the given status code and score. -/
def Ex.reporting (code : Int) (score shift : ℚ) : nlopt.Backend ℚ :=
  { solve := fun _ x => { x := x.map (· + shift), opt_f := score, result := code },
    size_x := fun _ x => List.length_map x _ }

/-- A solver that leaves the working array as it is. -/
def Ex.still : nlopt.Backend ℚ :=
  { solve := fun _ x => { x := x, opt_f := 0, result := 1 },
    size_x := fun _ _ => rfl }

/-- An adapter as the public constructor builds it. -/
def Ex.simplex : NloptOptimizer ℚ :=
  NloptOptimizer.new .LN_NELDERMEAD
    { type := .RELATIVE, stoplimit := 1 / 10000, max_iterations := 0 } .MIN

/-- An adapter of the public constructor for a multi-level single-linkage
algorithm. -/
def Ex.mlsl : NloptOptimizer ℚ :=
  NloptOptimizer.new .GN_MLSL
    { type := .ABSOLUTE, stoplimit := 1 / 1000, max_iterations := 50 } .MAX

/-- The adapter `Ex.mlsl` after earlier use: a solver object and arrays of another
arity are left in it. -/
def Ex.used : NloptOptimizer ℚ :=
  { Ex.mlsl with
    opt_ := [.construct .GN_MLSL 3, .optimize [1, 2, 3]],
    lower_bounds_ := [-1, -1, -1], upper_bounds_ := [1, 1, 1], initvals_ := [4, 5, 6] }

/-- The objective `f(x, y) = (x - 3)^2 + (y + 2)^2`. -/
def Ex.paraboloid : Fn [Ex.double, Ex.double] ℚ :=
  fun (x y : ℚ) => (x - 3) ^ 2 + (y + 2) ^ 2

/-- The initial values `(0, 0)`. -/
def Ex.origin : Tuple [Ex.double, Ex.double] := ((0 : ℚ), (0 : ℚ), ())

/-- The bounds `[-10, 10]` for both parameters. -/
def Ex.box : Bounds [Ex.double, Ex.double] :=
  (({ min_ := -10, max_ := 10 } : Bound ℚ), ({ min_ := -10, max_ := 10 } : Bound ℚ), ())

/-! ## Lemmas on flat arrays -/

theorem Spec.length_flatten {Dbl : Type} {F : SlotType Dbl → Type}
    (g : (s : SlotType Dbl) → F s → Dbl) :
    ∀ (ss : List (SlotType Dbl)) (xs : HList F ss), (Spec.flatten g ss xs).length = ss.length
  | [], _ => rfl
  | _ :: ss, (_, xs) => by simp [Spec.flatten, Spec.length_flatten g ss xs]

theorem Spec.getElem?_flatten {Dbl : Type} {F : SlotType Dbl → Type}
    (g : (s : SlotType Dbl) → F s → Dbl) :
    ∀ (ss : List (SlotType Dbl)) (xs : HList F ss) (i : Nat),
      (Spec.flatten g ss xs)[i]? = (HList.nth ss xs i).map (fun p => g p.1 p.2)
  | [], _, _ => rfl
  | _ :: _, (_, _), 0 => by simp [Spec.flatten, HList.nth]
  | _ :: ss, (_, xs), i + 1 => by
    simp [Spec.flatten, HList.nth, Spec.getElem?_flatten g ss xs i]

theorem splice_set {Dbl : Type} (l : List Dbl) (i : Nat) (v : Dbl) (vals : List Dbl)
    (h : i < l.length) : splice (l.set i v) (i + 1) vals = splice l i (v :: vals) := by
  unfold splice
  have h1 : List.take (i + 1) (l.set i v) = List.take i l ++ [v] := by
    rw [List.set_eq_take_append_cons_drop]
    have h3 : i + 1 - min i l.length = 1 := by omega
    simp [h, List.take_append_eq_append_take, List.take_take, h3]
  have h2 : List.drop (i + 1 + vals.length) (l.set i v) = List.drop (i + (v :: vals).length) l := by
    rw [List.drop_set_of_lt _ _ (by omega)]
    congr 1
    simp
    omega
  rw [h1, h2]
  simp

theorem splice_all {Dbl : Type} (l vals : List Dbl) (h : l.length = vals.length) :
    splice l 0 vals = vals := by
  simp [splice, h]

theorem length_vec_resize {Dbl : Type} [Zero Dbl] (v : List Dbl) (n : Nat) :
    (vec_resize v n).length = n := by
  simp [vec_resize]
  omega

/-! ## The four marshalling passes -/

theorem applyFrom_BoundsFunc {Dbl : Type} :
    ∀ (ss : List (SlotType Dbl)) (i : Nat) (args : Bounds ss) (self : NloptOptimizer Dbl),
      i + ss.length ≤ self.lower_bounds_.length →
      i + ss.length ≤ self.upper_bounds_.length →
      metaloop.applyFrom BoundsFunc i ss args self =
        .ok (args, { self with
          lower_bounds_ := splice self.lower_bounds_ i (Spec.lower ss args),
          upper_bounds_ := splice self.upper_bounds_ i (Spec.upper ss args) })
  | [], i, (), self, _, _ => by
    simp [metaloop.applyFrom, splice, Spec.lower, Spec.upper, Spec.flatten]
  | s :: ss, i, (b, bs), self, hl, hu => by
    simp only [List.length_cons] at hl hu
    have hl1 : i < self.lower_bounds_.length := by omega
    have hu1 : i < self.upper_bounds_.length := by omega
    have ih := applyFrom_BoundsFunc ss (i + 1) bs
      { self with
        lower_bounds_ := self.lower_bounds_.set i (s.toDouble b.min),
        upper_bounds_ := self.upper_bounds_.set i (s.toDouble b.max) }
      (by simp; omega) (by simp; omega)
    simp only [metaloop.applyFrom, BoundsFunc, vec_write, hl1, hu1, if_true, ih]
    simp [Spec.lower, Spec.upper, Spec.flatten, splice_set, hl1, hu1]

theorem applyFrom_InitValFunc {Dbl : Type} :
    ∀ (ss : List (SlotType Dbl)) (i : Nat) (initvals : Tuple ss) (self : NloptOptimizer Dbl),
      i + ss.length ≤ self.initvals_.length →
      metaloop.applyFrom InitValFunc i ss initvals self =
        .ok (initvals, { self with
          initvals_ := splice self.initvals_ i (Spec.seed ss initvals) })
  | [], i, (), self, _ => by
    simp [metaloop.applyFrom, splice, Spec.seed, Spec.flatten]
  | s :: ss, i, (v, vs), self, hl => by
    simp only [List.length_cons] at hl
    have hl1 : i < self.initvals_.length := by omega
    have ih := applyFrom_InitValFunc ss (i + 1) vs
      { self with initvals_ := self.initvals_.set i (s.toDouble v) } (by simp; omega)
    simp only [metaloop.applyFrom, InitValFunc, vec_write, hl1, if_true, ih]
    simp [Spec.seed, Spec.flatten, splice_set, hl1]

theorem applyFrom_ResultCopyFunc {Dbl : Type} :
    ∀ (ss : List (SlotType Dbl)) (i : Nat) (tup : Tuple ss) (self : NloptOptimizer Dbl),
      metaloop.applyFrom ResultCopyFunc i ss tup self =
        match Spec.decode ss (self.initvals_.drop i) with
        | some t => .ok (t, self)
        | none => .error .out_of_range
  | [], i, _, self => by simp [metaloop.applyFrom, Spec.decode]
  | s :: ss, i, (v, vs), self => by
    have ih := applyFrom_ResultCopyFunc ss (i + 1) vs self
    by_cases h : i < self.initvals_.length
    · rw [List.drop_eq_getElem_cons h]
      simp only [metaloop.applyFrom, ResultCopyFunc, vec_read, List.getElem?_eq_getElem h, ih,
        Spec.decode]
      cases Spec.decode ss (List.drop (i + 1) self.initvals_) <;> rfl
    · have h1 : self.initvals_.drop i = [] := List.drop_eq_nil_of_le (by omega)
      have h2 : self.initvals_[i]? = none := List.getElem?_eq_none (by omega)
      simp [metaloop.applyFrom, ResultCopyFunc, vec_read, h1, h2, Spec.decode]

theorem applyFrom_FunvalCopyFunc {Dbl : Type} :
    ∀ (ss : List (SlotType Dbl)) (i : Nat) (tup : Tuple ss) (params : List Dbl),
      metaloop.applyFrom FunvalCopyFunc i ss tup params =
        match Spec.decode ss (params.drop i) with
        | some t => .ok (t, params)
        | none => .error .out_of_range
  | [], i, _, params => by simp [metaloop.applyFrom, Spec.decode]
  | s :: ss, i, (v, vs), params => by
    have ih := applyFrom_FunvalCopyFunc ss (i + 1) vs params
    by_cases h : i < params.length
    · rw [List.drop_eq_getElem_cons h]
      simp only [metaloop.applyFrom, FunvalCopyFunc, vec_read, List.getElem?_eq_getElem h, ih,
        Spec.decode]
      cases Spec.decode ss (List.drop (i + 1) params) <;> rfl
    · have h1 : params.drop i = [] := List.drop_eq_nil_of_le (by omega)
      have h2 : params[i]? = none := List.getElem?_eq_none (by omega)
      simp [metaloop.applyFrom, FunvalCopyFunc, vec_read, h1, h2, Spec.decode]

theorem apply_BoundsFunc {Dbl : Type} (ss : List (SlotType Dbl)) (args : Bounds ss)
    (self : NloptOptimizer Dbl) (hl : self.lower_bounds_.length = ss.length)
    (hu : self.upper_bounds_.length = ss.length) :
    metaloop.apply BoundsFunc ss args self =
      .ok (args, { self with
        lower_bounds_ := Spec.lower ss args, upper_bounds_ := Spec.upper ss args }) := by
  unfold metaloop.apply
  rw [applyFrom_BoundsFunc ss 0 args self (by omega) (by omega)]
  rw [splice_all _ _ (by rw [hl, Spec.lower, Spec.length_flatten]),
    splice_all _ _ (by rw [hu, Spec.upper, Spec.length_flatten])]

theorem apply_InitValFunc {Dbl : Type} (ss : List (SlotType Dbl)) (initvals : Tuple ss)
    (self : NloptOptimizer Dbl) (hl : self.initvals_.length = ss.length) :
    metaloop.apply InitValFunc ss initvals self =
      .ok (initvals, { self with initvals_ := Spec.seed ss initvals }) := by
  unfold metaloop.apply
  rw [applyFrom_InitValFunc ss 0 initvals self (by omega)]
  rw [splice_all _ _ (by rw [hl, Spec.seed, Spec.length_flatten])]

theorem Spec.decode_of_le {Dbl : Type} :
    ∀ (ss : List (SlotType Dbl)) (x : List Dbl), ss.length ≤ x.length →
      Spec.decode ss x = some (Spec.decodeD ss x)
  | [], _, _ => rfl
  | _ :: _, [], h => by simp at h
  | s :: ss, d :: ds, h => by
    have ih := Spec.decode_of_le ss ds (by simpa using h)
    unfold Spec.decodeD
    simp only [Spec.decode]
    rw [ih]
    rfl

theorem apply_ResultCopyFunc {Dbl : Type} (ss : List (SlotType Dbl)) (tup : Tuple ss)
    (self : NloptOptimizer Dbl) (hl : ss.length ≤ self.initvals_.length) :
    metaloop.apply ResultCopyFunc ss tup self = .ok (Spec.decodeD ss self.initvals_, self) := by
  unfold metaloop.apply
  rw [applyFrom_ResultCopyFunc ss 0 tup self]
  simp [Spec.decode_of_le ss self.initvals_ hl]

/-! ## The whole of `optimize` -/

theorem Spec.length_seed {Dbl : Type} (ss : List (SlotType Dbl)) (initvals : Tuple ss) :
    (Spec.seed ss initvals).length = ss.length := by
  rw [Spec.seed, Spec.length_flatten]

theorem Spec.length_lower {Dbl : Type} (ss : List (SlotType Dbl)) (args : Bounds ss) :
    (Spec.lower ss args).length = ss.length := by
  rw [Spec.lower, Spec.length_flatten]

theorem Spec.length_upper {Dbl : Type} (ss : List (SlotType Dbl)) (args : Bounds ss) :
    (Spec.upper ss args).length = ss.length := by
  rw [Spec.upper, Spec.length_flatten]

theorem Spec.shim_eq {Dbl : Type} (ss : List (SlotType Dbl)) (R : SlotType Dbl)
    (func : Fn ss R.T) : Spec.shim ss R func = fun p g => optfunc ss R p g func := rfl

theorem optimize_eq {Dbl : Type} [Zero Dbl] (B : nlopt.Backend Dbl) (self : NloptOptimizer Dbl)
    (ss : List (SlotType Dbl)) (R : SlotType Dbl) (func : Fn ss R.T) (initvals : Tuple ss)
    (args : Bounds ss) :
    NloptOptimizer.optimize B self ss R func initvals args =
      Spec.optimize B self ss R func initvals args := by
  obtain ⟨opt0, lb0, ub0, iv0, alg, lm, ⟨ty, lim, maxit⟩, dir⟩ := self
  unfold NloptOptimizer.optimize Spec.optimize
  simp only []
  rw [apply_BoundsFunc ss args _ (length_vec_resize _ _) (length_vec_resize _ _)]
  have hsz : ∀ (o : nlopt.opt Dbl), ss.length ≤ (B.solve o (Spec.seed ss initvals)).x.length := by
    intro o
    rw [B.size_x, Spec.length_seed]
  cases hlm : method2nloptAlg lm <;> cases alg <;> cases ty <;> cases dir <;>
    by_cases hm : 0 < maxit <;>
    simp [nlopt.opt.mk, nlopt.opt.call, nlopt.opt.get_algorithm, Spec.needsLocal, hlm, hm,
      apply_InitValFunc, length_vec_resize, apply_ResultCopyFunc, hsz, Spec.completed,
      Spec.aborted, Spec.config, Spec.bounded, Spec.stopCalls, Spec.objectiveCall, Spec.shim_eq]

theorem optimize_of_not_aborts {Dbl : Type} [Zero Dbl] (B : nlopt.Backend Dbl)
    (self : NloptOptimizer Dbl) (ss : List (SlotType Dbl)) (R : SlotType Dbl) (func : Fn ss R.T)
    (initvals : Tuple ss) (args : Bounds ss) (h : Spec.aborts self = false) :
    NloptOptimizer.optimize B self ss R func initvals args =
      Spec.completed B self ss R func initvals args (Spec.localFor self ss args) := by
  rw [optimize_eq]
  unfold Spec.optimize Spec.localFor
  unfold Spec.aborts at h
  cases hn : Spec.needsLocal self.alg_
  · simp
  · cases hm : self.localmethod_ <;> simp_all [method2nloptAlg, Spec.supported]

theorem optimize_of_aborts {Dbl : Type} [Zero Dbl] (B : nlopt.Backend Dbl)
    (self : NloptOptimizer Dbl) (ss : List (SlotType Dbl)) (R : SlotType Dbl) (func : Fn ss R.T)
    (initvals : Tuple ss) (args : Bounds ss) (h : Spec.aborts self = true) :
    NloptOptimizer.optimize B self ss R func initvals args =
      Spec.aborted self ss args (.thrown self.localmethod_) := by
  rw [optimize_eq]
  unfold Spec.optimize
  unfold Spec.aborts at h
  cases hn : Spec.needsLocal self.alg_
  · simp_all
  · cases hm : self.localmethod_ <;> simp_all [method2nloptAlg, Spec.supported]

/-- The public constructor builds no adapter whose calls are aborted. -/
theorem Spec.aborts_new {Dbl : Type} (alg : nlopt.algorithm) (stopcr : StopCriteria Dbl)
    (dir : OptDir) : Spec.aborts (NloptOptimizer.new alg stopcr dir) = false := by
  simp [Spec.aborts, NloptOptimizer.new, Spec.supported]

/-- A call of `optimize` leaves the adapter in a state whose calls are aborted only
if the calls of the state before were. -/
theorem Spec.aborts_optimize {Dbl : Type} [Zero Dbl] (B : nlopt.Backend Dbl)
    (self : NloptOptimizer Dbl) (ss : List (SlotType Dbl)) (R : SlotType Dbl) (func : Fn ss R.T)
    (initvals : Tuple ss) (args : Bounds ss) :
    Spec.aborts (NloptOptimizer.optimize B self ss R func initvals args).self =
      Spec.aborts self := by
  rw [optimize_eq]
  unfold Spec.optimize
  cases Spec.needsLocal self.alg_
  · simp [Spec.completed, Spec.aborts]
  · cases method2nloptAlg self.localmethod_ <;> simp [Spec.completed, Spec.aborted, Spec.aborts]

theorem Spec.decode_seed {Dbl : Type} :
    ∀ (ss : List (SlotType Dbl)) (t : Tuple ss),
      Spec.decode ss (Spec.seed ss t) = some (Spec.roundTrip ss t)
  | [], () => rfl
  | s :: ss, (v, vs) => by
    have ih := Spec.decode_seed ss vs
    unfold Spec.seed at ih
    simp [Spec.seed, Spec.flatten, Spec.decode, Spec.roundTrip, ih]

theorem Spec.roundTrip_id {Dbl : Type} :
    ∀ (ss : List (SlotType Dbl)) (t : Tuple ss),
      (∀ s ∈ ss, ∀ v : s.T, s.ofDouble (s.toDouble v) = v) → Spec.roundTrip ss t = t
  | [], (), _ => rfl
  | s :: ss, (v, vs), h => by
    have ih := Spec.roundTrip_id ss vs (fun s1 hs1 => h s1 (List.mem_cons_of_mem _ hs1))
    simp [Spec.roundTrip, ih, h s (List.mem_cons_self _ _)]

theorem Spec.nth_decode {Dbl : Type} :
    ∀ (ss : List (SlotType Dbl)) (x : List Dbl) (t : Tuple ss) (i : Nat),
      Spec.decode ss x = some t →
      HList.nth ss t i =
        match ss[i]?, x[i]? with
        | some s, some d => some ⟨s, s.ofDouble d⟩
        | _, _ => none
  | [], _, _, _, _ => by simp [HList.nth]
  | _ :: _, [], _, _, h => by simp [Spec.decode] at h
  | s :: ss, d :: ds, (v, vs), i, h => by
    simp only [Spec.decode] at h
    cases hd : Spec.decode ss ds with
    | none => simp [hd] at h
    | some t1 =>
      rw [hd] at h
      cases h
      cases i with
      | zero => simp [HList.nth]
      | succ j =>
        have ih := Spec.nth_decode ss ds vs j hd
        simp [HList.nth, ih]

theorem Spec.callPositional_decode {Dbl : Type} {R : Type} :
    ∀ (ss : List (SlotType Dbl)) (f : Fn ss R) (x : List Dbl) (t : Tuple ss),
      Spec.decode ss x = some t →
      Spec.callPositional ss f x = some (metaloop.callFunWithTuple ss f t)
  | [], _, _, _, _ => rfl
  | _ :: _, _, [], _, h => by simp [Spec.decode] at h
  | s :: ss, f, d :: ds, (v, vs), h => by
    simp only [Spec.decode] at h
    cases hd : Spec.decode ss ds with
    | none => simp [hd] at h
    | some t1 =>
      rw [hd] at h
      cases h
      simp [Spec.callPositional, metaloop.callFunWithTuple,
        Spec.callPositional_decode ss (f (s.ofDouble d)) ds vs hd]

/-! ## The properties of the adapter -/

/-- C1: the arrays given to `set_lower_bounds`, to `set_upper_bounds` and to the
solve step of the primary solver have length `N` and hold, at every index `i`,
`bound_i.min()`, `bound_i.max()` and initial value `i` as doubles; each of the
three is passed once (the solve step not at all when the call is aborted), and
the working array is the seeded one whatever the adapter held before. -/
theorem optimize_flat_arrays {Dbl : Type} [Zero Dbl] (B : nlopt.Backend Dbl)
    (self : NloptOptimizer Dbl) (ss : List (SlotType Dbl)) (R : SlotType Dbl) (func : Fn ss R.T)
    (initvals : Tuple ss) (args : Bounds ss) :
    let run := NloptOptimizer.optimize B self ss R func initvals args
    nlopt.opt.lowerArgs run.self.opt_ = [Spec.lower ss args] ∧
    nlopt.opt.upperArgs run.self.opt_ = [Spec.upper ss args] ∧
    nlopt.opt.solveArgs run.self.opt_ =
      (if Spec.aborts self = true then [] else [Spec.seed ss initvals]) ∧
    (Spec.lower ss args).length = ss.length ∧
    (Spec.upper ss args).length = ss.length ∧
    (Spec.seed ss initvals).length = ss.length ∧
    (∀ i : Nat, (Spec.lower ss args)[i]? =
      (HList.nth ss args i).map fun p => p.1.toDouble p.2.min) ∧
    (∀ i : Nat, (Spec.upper ss args)[i]? =
      (HList.nth ss args i).map fun p => p.1.toDouble p.2.max) ∧
    (∀ i : Nat, (Spec.seed ss initvals)[i]? =
      (HList.nth ss initvals i).map fun p => p.1.toDouble p.2) := by
  intro run
  refine ⟨?_, ?_, ?_, Spec.length_lower ss args, Spec.length_upper ss args,
    Spec.length_seed ss initvals, fun i => Spec.getElem?_flatten _ ss args i,
    fun i => Spec.getElem?_flatten _ ss args i, fun i => Spec.getElem?_flatten _ ss initvals i⟩
  all_goals
    show _ = _
    simp only [run]
    cases h : Spec.aborts self
    · rw [optimize_of_not_aborts B self ss R func initvals args h]
      obtain ⟨opt0, lb0, ub0, iv0, alg, lm, ⟨ty, lim, maxit⟩, dir⟩ := self
      cases Spec.localFor _ ss args <;> cases ty <;> cases dir <;> by_cases hm : 0 < maxit <;>
        simp [Spec.completed, Spec.config, Spec.bounded, Spec.stopCalls, Spec.objectiveCall, hm,
          nlopt.opt.lowerArgs, nlopt.opt.upperArgs, nlopt.opt.solveArgs, List.filterMap_cons,
          List.filterMap_append]
    · rw [optimize_of_aborts B self ss R func initvals args h]
      simp [Spec.aborted, Spec.bounded, nlopt.opt.lowerArgs, nlopt.opt.upperArgs,
        nlopt.opt.solveArgs, List.filterMap_cons]

/-- C2 (as amended): in a call that is not aborted, slot `i` of the returned optimum
is element `i` of the working array as the solve step left it, converted to
the type of slot `i`.  When the solve step leaves the working array untouched
the optimum is the sequence of the initial values converted to double and
back; it is the sequence of the initial values when that conversion is the
identity for every slot type. -/
theorem optimize_decodes_optimum {Dbl : Type} [Zero Dbl] (B : nlopt.Backend Dbl)
    (self : NloptOptimizer Dbl) (ss : List (SlotType Dbl)) (R : SlotType Dbl) (func : Fn ss R.T)
    (initvals : Tuple ss) (args : Bounds ss) (h : Spec.aborts self = false) :
    let run := NloptOptimizer.optimize B self ss R func initvals args
    let cfg := Spec.config self ss R func args (Spec.localFor self ss args)
    let out := B.solve cfg (Spec.seed ss initvals)
    run.self.opt_ = cfg ++ [.optimize (Spec.seed ss initvals)] ∧
    run.self.initvals_ = out.x ∧
    out.x.length = ss.length ∧
    ∃ res : Result ss, run.result = .ok res ∧
      Spec.decode ss out.x = some res.optimum ∧
      (∀ i : Nat, HList.nth ss res.optimum i =
        match ss[i]?, out.x[i]? with
        | some s, some d => some ⟨s, s.ofDouble d⟩
        | _, _ => none) ∧
      (out.x = Spec.seed ss initvals → res.optimum = Spec.roundTrip ss initvals) ∧
      (out.x = Spec.seed ss initvals →
        (∀ s ∈ ss, ∀ v : s.T, s.ofDouble (s.toDouble v) = v) → res.optimum = initvals) := by
  intro run cfg out
  have hlen : out.x.length = ss.length := by
    simp only [out]
    rw [B.size_x, Spec.length_seed]
  have hdec : Spec.decode ss out.x = some (Spec.decodeD ss out.x) :=
    Spec.decode_of_le ss out.x (by omega)
  have hrt : out.x = Spec.seed ss initvals → Spec.decodeD ss out.x = Spec.roundTrip ss initvals := by
    intro hx
    have h1 := Spec.decode_seed ss initvals
    rw [← hx, hdec] at h1
    exact Option.some.inj h1
  have hrun : run = Spec.completed B self ss R func initvals args (Spec.localFor self ss args) :=
    optimize_of_not_aborts B self ss R func initvals args h
  rw [hrun]
  refine ⟨rfl, rfl, hlen, _, rfl, hdec, fun i => Spec.nth_decode ss out.x _ i hdec, hrt, ?_⟩
  intro hx hid
  exact (hrt hx).trans (Spec.roundTrip_id ss initvals hid)

/-- Witness of C2: with two slots of type double and a solve step that leaves the
working array untouched the optimum is the sequence of the initial values. -/
theorem optimize_decodes_optimum_witness :
    Spec.aborts Ex.mlsl = false ∧
    ∃ res : Result [Ex.double, Ex.double],
      (NloptOptimizer.optimize Ex.still Ex.mlsl [Ex.double, Ex.double] Ex.double
        Ex.paraboloid Ex.origin Ex.box).result = .ok res ∧
      res.optimum = Ex.origin :=
  ⟨rfl,
    (optimize_decodes_optimum Ex.still Ex.mlsl [Ex.double, Ex.double] Ex.double
      Ex.paraboloid Ex.origin Ex.box rfl).2.2.2.imp fun _ hres =>
        ⟨hres.1, hres.2.2.2.2 rfl (by
          intro s hs v
          simp only [List.mem_cons, List.mem_singleton, List.not_mem_nil, or_false, or_self] at hs
          subst hs
          rfl)⟩⟩

/-- C2 (as stated) fails: for one slot of type `long long` with initial value
`2^53 + 1` and a solve step that leaves the working array untouched, the
returned optimum is `2^53`, not the initial value. -/
theorem optimum_differs_from_initvals :
    (NloptOptimizer.optimize Ex.still Ex.simplex [Ex.int64] Ex.double
        (fun x : Int => (x : ℚ)) ((9007199254740993 : Int), ())
        (({ min_ := 0, max_ := 9223372036854775807 } : Bound Int), ())).self.initvals_ =
      Spec.seed [Ex.int64] ((9007199254740993 : Int), ()) ∧
    ∃ res : Result [Ex.int64],
      (NloptOptimizer.optimize Ex.still Ex.simplex [Ex.int64] Ex.double
        (fun x : Int => (x : ℚ)) ((9007199254740993 : Int), ())
        (({ min_ := 0, max_ := 9223372036854775807 } : Bound Int), ())).result = .ok res ∧
      res.optimum = ((9007199254740992 : Int), ()) ∧
      res.optimum ≠ ((9007199254740993 : Int), ()) := by
  refine ⟨rfl, ⟨1, 0, ((9007199254740992 : Int), ())⟩, rfl, rfl, fun h => ?_⟩
  have h1 : (9007199254740992 : Int) = 9007199254740993 := congrArg Prod.fst h
  exact absurd h1 (by decide)

/-- C3: for a parameter array `p` with at least `N` elements the shim returns
`f(p[0], ..., p[N-1])` (element `i` converted to the type of slot `i`), as a
double, whatever the gradient array is, and leaves the gradient array as it
is. -/
theorem optfunc_calls_objective {Dbl : Type} (ss : List (SlotType Dbl)) (R : SlotType Dbl)
    (f : Fn ss R.T) (p : List Dbl) (h : ss.length ≤ p.length) :
    ∃ v : R.T, Spec.callPositional ss f p = some v ∧
      ∀ g : List Dbl, optfunc ss R p g f = .ok (R.toDouble v, g) := by
  refine ⟨metaloop.callFunWithTuple ss f (Spec.decodeD ss p),
    Spec.callPositional_decode ss f p _ (Spec.decode_of_le ss p h), fun g => ?_⟩
  unfold optfunc metaloop.apply
  simp only []
  rw [applyFrom_FunvalCopyFunc]
  simp [Spec.decode_of_le ss p h]

/-- Witness of C3: the shim on a parameter array of three elements and an objective
of two parameters. -/
theorem optfunc_calls_objective_witness :
    [Ex.double, Ex.double].length ≤ [(5 : ℚ), 1, 7].length ∧
    ∃ v : ℚ, Spec.callPositional [Ex.double, Ex.double] Ex.paraboloid [5, 1, 7] = some v ∧
      ∀ g : List ℚ, optfunc [Ex.double, Ex.double] Ex.double [5, 1, 7] g Ex.paraboloid =
        .ok (v, g) :=
  ⟨by decide, optfunc_calls_objective [Ex.double, Ex.double] Ex.double Ex.paraboloid [5, 1, 7]
    (by decide)⟩

/-- C4: in a call that is not aborted the solve step is invoked once, after the
configuration calls, and whatever status code and score it reports are the
`resultcode` and the `score` of the `Result` that `optimize` returns. -/
theorem optimize_passes_status_through {Dbl : Type} [Zero Dbl] (B : nlopt.Backend Dbl)
    (self : NloptOptimizer Dbl) (ss : List (SlotType Dbl)) (R : SlotType Dbl) (func : Fn ss R.T)
    (initvals : Tuple ss) (args : Bounds ss) (h : Spec.aborts self = false) :
    let run := NloptOptimizer.optimize B self ss R func initvals args
    let cfg := Spec.config self ss R func args (Spec.localFor self ss args)
    let out := B.solve cfg (Spec.seed ss initvals)
    run.self.opt_ = cfg ++ [.optimize (Spec.seed ss initvals)] ∧
    nlopt.opt.solveArgs cfg = [] ∧
    (nlopt.opt.solveArgs run.self.opt_).length = 1 ∧
    ∃ res : Result ss, run.result = .ok res ∧ res.resultcode = out.result ∧
      res.score = out.opt_f := by
  intro run cfg out
  simp only [run, cfg, out]
  rw [optimize_of_not_aborts B self ss R func initvals args h]
  refine ⟨rfl, ?_, ?_, _, rfl, rfl, rfl⟩
  all_goals
    obtain ⟨opt0, lb0, ub0, iv0, alg, lm, ⟨ty, lim, maxit⟩, dir⟩ := self
    cases Spec.localFor _ ss args <;> cases ty <;> cases dir <;> by_cases hm : 0 < maxit <;>
      simp [Spec.completed, Spec.config, Spec.bounded, Spec.stopCalls, Spec.objectiveCall, hm,
        nlopt.opt.solveArgs, List.filterMap_cons, List.filterMap_append]

/-- Witness of C4: the non-success status code `-4` and the score `7/2` come back in
the `Result`. -/
theorem optimize_passes_status_through_witness :
    Spec.aborts Ex.mlsl = false ∧
    ∃ res : Result [Ex.double, Ex.double],
      (NloptOptimizer.optimize (Ex.reporting (-4) (7 / 2) 0) Ex.mlsl [Ex.double, Ex.double]
        Ex.double Ex.paraboloid Ex.origin Ex.box).result = .ok res ∧
      res.resultcode = -4 ∧ res.score = 7 / 2 :=
  ⟨rfl,
    (optimize_passes_status_through (Ex.reporting (-4) (7 / 2) 0) Ex.mlsl
      [Ex.double, Ex.double] Ex.double Ex.paraboloid Ex.origin Ex.box rfl).2.2.2⟩

/-- C5: in a call that is not aborted the primary solver gets `set_ftol_abs(stoplimit)`
and no `set_ftol_rel` when the limit type is absolute, `set_ftol_rel(stoplimit)`
and no `set_ftol_abs` when it is relative, and `set_maxeval(max_iterations)`
exactly when `max_iterations > 0`. -/
theorem optimize_stop_criteria {Dbl : Type} [Zero Dbl] (B : nlopt.Backend Dbl)
    (self : NloptOptimizer Dbl) (ss : List (SlotType Dbl)) (R : SlotType Dbl) (func : Fn ss R.T)
    (initvals : Tuple ss) (args : Bounds ss) (h : Spec.aborts self = false) :
    let run := NloptOptimizer.optimize B self ss R func initvals args
    nlopt.opt.ftolAbsArgs run.self.opt_ =
      (match self.stopcr_.type with
        | .ABSOLUTE => [self.stopcr_.stoplimit]
        | .RELATIVE => []) ∧
    nlopt.opt.ftolRelArgs run.self.opt_ =
      (match self.stopcr_.type with
        | .ABSOLUTE => []
        | .RELATIVE => [self.stopcr_.stoplimit]) ∧
    nlopt.opt.maxevalArgs run.self.opt_ =
      (if self.stopcr_.max_iterations > 0 then [self.stopcr_.max_iterations] else []) := by
  intro run
  simp only [run]
  rw [optimize_of_not_aborts B self ss R func initvals args h]
  obtain ⟨opt0, lb0, ub0, iv0, alg, lm, ⟨ty, lim, maxit⟩, dir⟩ := self
  cases Spec.localFor _ ss args <;> cases ty <;> cases dir <;> by_cases hm : 0 < maxit <;>
    simp [Spec.completed, Spec.config, Spec.bounded, Spec.stopCalls, Spec.objectiveCall, hm,
      nlopt.opt.ftolAbsArgs, nlopt.opt.ftolRelArgs, nlopt.opt.maxevalArgs, List.filterMap_cons,
      List.filterMap_append]

/-- Witness of C5: `max_iterations = 50` caps the evaluation count at 50. -/
theorem optimize_stop_criteria_witness :
    Spec.aborts Ex.mlsl = false ∧
    nlopt.opt.maxevalArgs
      (NloptOptimizer.optimize Ex.still Ex.mlsl [Ex.double, Ex.double] Ex.double
        Ex.paraboloid Ex.origin Ex.box).self.opt_ = [50] :=
  ⟨rfl,
    (optimize_stop_criteria Ex.still Ex.mlsl [Ex.double, Ex.double] Ex.double
      Ex.paraboloid Ex.origin Ex.box rfl).2.2⟩

/-- C6: in a call that is not aborted the primary solver gets one
objective-registration call, the last call before the solve step, with the shim
bound to the objective of the caller: `set_min_objective` (and no
`set_max_objective`) for direction `MIN`, `set_max_objective` (and no
`set_min_objective`) for direction `MAX`. -/
theorem optimize_registers_objective {Dbl : Type} [Zero Dbl] (B : nlopt.Backend Dbl)
    (self : NloptOptimizer Dbl) (ss : List (SlotType Dbl)) (R : SlotType Dbl) (func : Fn ss R.T)
    (initvals : Tuple ss) (args : Bounds ss) (h : Spec.aborts self = false) :
    let run := NloptOptimizer.optimize B self ss R func initvals args
    let shim : nlopt.vfunc Dbl := fun p g => optfunc ss R p g func
    nlopt.opt.minObjectiveArgs run.self.opt_ =
      (match self.dir_ with
        | .MIN => [shim]
        | .MAX => []) ∧
    nlopt.opt.maxObjectiveArgs run.self.opt_ =
      (match self.dir_ with
        | .MIN => []
        | .MAX => [shim]) ∧
    ∃ pre : nlopt.opt Dbl,
      run.self.opt_ =
        pre ++ [(match self.dir_ with
                  | .MIN => nlopt.Call.set_min_objective shim
                  | .MAX => nlopt.Call.set_max_objective shim),
                nlopt.Call.optimize (Spec.seed ss initvals)] ∧
      nlopt.opt.solveArgs pre = [] := by
  intro run shim
  simp only [run, shim]
  rw [optimize_of_not_aborts B self ss R func initvals args h]
  refine ⟨?_, ?_, Spec.bounded self.alg_ ss args ++
    (match Spec.localFor self ss args with
      | some l => [nlopt.Call.set_local_optimizer l]
      | none => []) ++ Spec.stopCalls self.stopcr_, ?_, ?_⟩
  all_goals
    obtain ⟨opt0, lb0, ub0, iv0, alg, lm, ⟨ty, lim, maxit⟩, dir⟩ := self
    cases Spec.localFor _ ss args <;> cases ty <;> cases dir <;> by_cases hm : 0 < maxit <;>
      simp [Spec.completed, Spec.config, Spec.bounded, Spec.stopCalls, Spec.objectiveCall, hm,
        Spec.shim_eq, nlopt.opt.minObjectiveArgs, nlopt.opt.maxObjectiveArgs,
        nlopt.opt.solveArgs, List.filterMap_cons, List.filterMap_append]

/-- Witness of C6: for direction `MAX` there is no `set_min_objective` call. -/
theorem optimize_registers_objective_witness :
    Spec.aborts Ex.mlsl = false ∧
    nlopt.opt.minObjectiveArgs
      (NloptOptimizer.optimize Ex.still Ex.mlsl [Ex.double, Ex.double] Ex.double
        Ex.paraboloid Ex.origin Ex.box).self.opt_ = [] :=
  ⟨rfl,
    (optimize_registers_objective Ex.still Ex.mlsl [Ex.double, Ex.double] Ex.double
      Ex.paraboloid Ex.origin Ex.box rfl).1⟩

/-- C7: when the algorithm is `GN_MLSL` or `GN_MLSL_LDS` and the local method has
the backend identifier `la`, `optimize` builds a second solver for `la` and
dimension `N`, gives it the lower and upper bound arrays of the primary solver,
and attaches it to the primary solver (once); for the adapter of the public
constructor `la` is `LN_NELDERMEAD`.  For every other algorithm no second
solver is built and no local optimizer is attached.  The call leaves the
algorithm and the local method of the adapter as they are. -/
theorem optimize_local_optimizer {Dbl : Type} [Zero Dbl] (B : nlopt.Backend Dbl)
    (self : NloptOptimizer Dbl) (ss : List (SlotType Dbl)) (R : SlotType Dbl) (func : Fn ss R.T)
    (initvals : Tuple ss) (args : Bounds ss) :
    let run := NloptOptimizer.optimize B self ss R func initvals args
    (Spec.needsLocal self.alg_ = true ↔
      self.alg_ = .GN_MLSL ∨ self.alg_ = .GN_MLSL_LDS) ∧
    (Spec.needsLocal self.alg_ = true →
      ∀ la : nlopt.algorithm, method2nloptAlg self.localmethod_ = .ok la →
        run.localopt =
          [.construct la ss.length, .set_lower_bounds (Spec.lower ss args),
            .set_upper_bounds (Spec.upper ss args)] ∧
        nlopt.opt.localArgs run.self.opt_ = [run.localopt] ∧
        nlopt.opt.lowerArgs run.localopt = nlopt.opt.lowerArgs run.self.opt_ ∧
        nlopt.opt.upperArgs run.localopt = nlopt.opt.upperArgs run.self.opt_) ∧
    (Spec.needsLocal self.alg_ = false →
      run.localopt = [] ∧ nlopt.opt.localArgs run.self.opt_ = []) ∧
    (∀ (alg : nlopt.algorithm) (stopcr : StopCriteria Dbl) (dir : OptDir),
      method2nloptAlg (NloptOptimizer.new alg stopcr dir).localmethod_ = .ok .LN_NELDERMEAD) ∧
    run.self.localmethod_ = self.localmethod_ ∧ run.self.alg_ = self.alg_ := by
  intro run
  refine ⟨?_, ?_, ?_, fun _ _ _ => rfl, ?_⟩
  · cases self.alg_ <;> simp [Spec.needsLocal]
  · intro hn la hla
    simp only [run]
    rw [optimize_eq]
    obtain ⟨opt0, lb0, ub0, iv0, alg, lm, ⟨ty, lim, maxit⟩, dir⟩ := self
    simp only [] at hn hla
    cases ty <;> cases dir <;> by_cases hm : 0 < maxit <;>
      simp [Spec.optimize, hn, hla, Spec.completed, Spec.config, Spec.bounded, Spec.stopCalls,
        Spec.objectiveCall, hm, nlopt.opt.localArgs, nlopt.opt.lowerArgs, nlopt.opt.upperArgs,
        List.filterMap_cons, List.filterMap_append]
  · intro hn
    simp only [run]
    rw [optimize_eq]
    obtain ⟨opt0, lb0, ub0, iv0, alg, lm, ⟨ty, lim, maxit⟩, dir⟩ := self
    simp only [] at hn
    cases ty <;> cases dir <;> by_cases hm : 0 < maxit <;>
      simp [Spec.optimize, hn, Spec.completed, Spec.config, Spec.bounded, Spec.stopCalls,
        Spec.objectiveCall, hm, nlopt.opt.localArgs, List.filterMap_cons, List.filterMap_append]
  · simp only [run]
    rw [optimize_eq]
    unfold Spec.optimize
    cases Spec.needsLocal self.alg_
    · simp [Spec.completed]
    · cases method2nloptAlg self.localmethod_ <;> simp [Spec.completed, Spec.aborted]

/-- Witness of C7: for `GN_MLSL` the second solver is a Nelder-Mead solver of
dimension 2 with the bounds of the call. -/
theorem optimize_local_optimizer_witness :
    Spec.needsLocal Ex.mlsl.alg_ = true ∧
    method2nloptAlg Ex.mlsl.localmethod_ = .ok .LN_NELDERMEAD ∧
    (NloptOptimizer.optimize Ex.still Ex.mlsl [Ex.double, Ex.double] Ex.double
        Ex.paraboloid Ex.origin Ex.box).localopt =
      [.construct .LN_NELDERMEAD 2, .set_lower_bounds [-10, -10],
        .set_upper_bounds [10, 10]] :=
  ⟨rfl, rfl,
    ((optimize_local_optimizer Ex.still Ex.mlsl [Ex.double, Ex.double] Ex.double
      Ex.paraboloid Ex.origin Ex.box).2.1 rfl .LN_NELDERMEAD rfl).1⟩

/-- C8: `method2nloptAlg` returns `LN_NELDERMEAD` for `L_SIMPLEX`, `LN_SBPLX` for
`L_SUBPLEX` and `GN_ESCH` for `G_GENETIC`; it returns an identifier for every
supported tag, and two different supported tags never get the same
identifier. -/
theorem method2nloptAlg_supported_injective :
    method2nloptAlg .L_SIMPLEX = .ok .LN_NELDERMEAD ∧
    method2nloptAlg .L_SUBPLEX = .ok .LN_SBPLX ∧
    method2nloptAlg .G_GENETIC = .ok .GN_ESCH ∧
    (∀ m : Method, Spec.supported m = true → ∃ a, method2nloptAlg m = .ok a) ∧
    ∀ m m2 : Method, Spec.supported m = true → Spec.supported m2 = true → m ≠ m2 →
      method2nloptAlg m ≠ method2nloptAlg m2 := by
  refine ⟨rfl, rfl, rfl, ?_, ?_⟩
  · intro m h
    cases m <;> simp_all [method2nloptAlg, Spec.supported]
  · intro m m2 h1 h2 hne
    cases m <;> cases m2 <;> simp_all [method2nloptAlg, Spec.supported]

/-- Witness of C8: the supported tags `L_SIMPLEX` and `G_GENETIC` differ, and so do
their identifiers. -/
theorem method2nloptAlg_supported_injective_witness :
    Spec.supported .L_SIMPLEX = true ∧ Spec.supported .G_GENETIC = true ∧
    Method.L_SIMPLEX ≠ Method.G_GENETIC ∧
    method2nloptAlg .L_SIMPLEX ≠ method2nloptAlg .G_GENETIC :=
  ⟨rfl, rfl, by decide,
    method2nloptAlg_supported_injective.2.2.2.2 .L_SIMPLEX .G_GENETIC rfl rfl (by decide)⟩

/-- C9: `method2nloptAlg` ends with the exception `throw(m)` exactly for the tags
`m` other than `L_SIMPLEX`, `L_SUBPLEX` and `G_GENETIC`, and returns an
identifier exactly for these three tags. -/
theorem method2nloptAlg_throws_iff (m : Method) :
    (method2nloptAlg m = .error (.thrown m) ↔ Spec.supported m = false) ∧
    ((∃ e, method2nloptAlg m = .error e) ↔ Spec.supported m = false) ∧
    ((∃ a, method2nloptAlg m = .ok a) ↔ Spec.supported m = true) ∧
    (Spec.supported m = true ↔ m = .L_SIMPLEX ∨ m = .L_SUBPLEX ∨ m = .G_GENETIC) := by
  cases m <;> simp [method2nloptAlg, Spec.supported]

/-- C10: two adapters that agree on algorithm, local method, stopping criteria and
direction, whatever their solver objects and arrays hold, make the same calls
on the primary and on the local solver, leave the same bound arrays and return
the same `Result` (or end with the same exception) when `optimize` is called
with the same arguments against the same solver. -/
theorem optimize_ignores_leftover_state {Dbl : Type} [Zero Dbl] (B : nlopt.Backend Dbl)
    (o1 o2 : NloptOptimizer Dbl) (ss : List (SlotType Dbl)) (R : SlotType Dbl)
    (func : Fn ss R.T) (initvals : Tuple ss) (args : Bounds ss)
    (halg : o1.alg_ = o2.alg_) (hlocal : o1.localmethod_ = o2.localmethod_)
    (hstop : o1.stopcr_ = o2.stopcr_) (hdir : o1.dir_ = o2.dir_) :
    let run1 := NloptOptimizer.optimize B o1 ss R func initvals args
    let run2 := NloptOptimizer.optimize B o2 ss R func initvals args
    run1.result = run2.result ∧
    run1.self.opt_ = run2.self.opt_ ∧
    run1.localopt = run2.localopt ∧
    run1.self.lower_bounds_ = run2.self.lower_bounds_ ∧
    run1.self.upper_bounds_ = run2.self.upper_bounds_ ∧
    (Spec.aborts o1 = false → run1.self = run2.self) := by
  intro run1 run2
  simp only [run1, run2]
  rw [optimize_eq, optimize_eq]
  obtain ⟨opt1, lb1, ub1, iv1, alg1, lm1, st1, dir1⟩ := o1
  obtain ⟨opt2, lb2, ub2, iv2, alg2, lm2, st2, dir2⟩ := o2
  simp only [] at halg hlocal hstop hdir
  subst halg hlocal hstop hdir
  unfold Spec.optimize Spec.aborts
  cases hn : Spec.needsLocal alg1
  · simp [Spec.completed, Spec.config]
  · cases hm : method2nloptAlg lm1 with
    | error e =>
      cases lm1 <;> simp_all [Spec.aborted, method2nloptAlg, Spec.supported]
    | ok la => simp [Spec.completed, Spec.config]

/-- Witness of C10: a fresh adapter and a used one with arrays of another arity
return the same result. -/
theorem optimize_ignores_leftover_state_witness :
    Ex.mlsl.alg_ = Ex.used.alg_ ∧ Ex.mlsl.localmethod_ = Ex.used.localmethod_ ∧
    Ex.mlsl.stopcr_ = Ex.used.stopcr_ ∧ Ex.mlsl.dir_ = Ex.used.dir_ ∧
    Ex.mlsl.initvals_.length ≠ Ex.used.initvals_.length ∧
    (NloptOptimizer.optimize Ex.still Ex.mlsl [Ex.double, Ex.double] Ex.double
        Ex.paraboloid Ex.origin Ex.box).result =
      (NloptOptimizer.optimize Ex.still Ex.used [Ex.double, Ex.double] Ex.double
        Ex.paraboloid Ex.origin Ex.box).result :=
  ⟨rfl, rfl, rfl, rfl, by decide,
    (optimize_ignores_leftover_state Ex.still Ex.mlsl Ex.used [Ex.double, Ex.double] Ex.double
      Ex.paraboloid Ex.origin Ex.box rfl rfl rfl rfl).1⟩

end libnest2d.opt
